import Mathlib

/-
Shallow embedding of the recognizer training engine of recogtrain.c
(leptonica).  Binary images are modelled as dimensions plus a pixel
predicate; floating point centroid and score arithmetic is modelled over
the rationals (every comparison and truncation the claims depend on is
exact order arithmetic, so the idealization is faithful); machine
integers are modelled as Nat or Int.  External collaborators that live
in other files of the library (pixel-level routines, container
primitives) are either passed in as function parameters or, where a
claim depends on their behavior, defined from the specification with a
doc comment saying so.
-/

/-- A 1 bpp raster image: width, height, bit depth (1 for binary), a
foreground predicate on pixel coordinates, and the embedded text label
that leptonica stores in the pix header. -/
structure Pix where
  w : Nat
  h : Nat
  d : Nat
  fg : Nat → Nat → Bool
  text : String

/-- Guarded pixel accessor: foreground bit at (x, y), false outside the
image bounds. -/
def Pix.bit (p : Pix) (x y : Nat) : Bool :=
  if x < p.w ∧ y < p.h then p.fg x y else false

/-- A blank (all background) 1 bpp image, as produced by pixCreate. -/
def blankPix (w h : Nat) : Pix :=
  ⟨w, h, 1, fun _ _ => false, ""⟩

/-- Two images are bit-identical: same dimensions and the same
foreground bit at every coordinate. -/
def bitEq (p q : Pix) : Prop :=
  p.w = q.w ∧ p.h = q.h ∧ ∀ x < p.w, ∀ y < p.h, p.bit x y = q.bit x y

instance (p q : Pix) : Decidable (bitEq p q) := by
  unfold bitEq; infer_instance

/-- Number of foreground pixels (pixCountPixels). -/
def pixCountPixels (p : Pix) : Nat :=
  ((List.range p.h).map (fun y =>
    ((List.range p.w).filter (fun x => p.bit x y)).length)).sum

/-- An 8 bpp accumulator image (the pixInitAccumulate and
pixFinalAccumulate pair with offset 0 reduces to a per-pixel Nat sum). -/
structure SumPix where
  w : Nat
  h : Nat
  v : Nat → Nat → Nat

/-- Truncation of a rational toward zero, as the C cast (l_int32) does
for a float value. -/
def truncQ (q : ℚ) : Int :=
  if 0 ≤ q then Int.floor q else -Int.floor (-q)

/-- Bit contributed at destination coordinate (x, y) by pixRasterop,
which places the source image p at offset (dx, dy) inside a cleared
maxw times maxh canvas: source reads are clipped to the source bounds
and to the transfer rectangle. -/
def shiftedBit (p : Pix) (dx dy : Int) (maxw maxh : Nat) (x y : Nat) : Bool :=
  let sx : Int := (x : Int) - dx
  let sy : Int := (y : Int) - dy
  if 0 ≤ sx ∧ sx < (min p.w maxw : Nat) ∧ 0 ≤ sy ∧ sy < (min p.h maxh : Nat)
  then p.fg sx.toNat sy.toNat else false

/-- The recognizer model (struct L_RECOG), restricted to the fields the
training code reads or writes.  Per-class sample collections are
index-aligned lists; the averaging results are per-class lists. -/
structure Recog where
  scalew : Nat
  scaleh : Nat
  linew : Nat
  threshold : Nat
  maxyshift : Nat
  charset_type : Int
  charset_size : Nat
  min_nopad : Nat
  num_samples : Nat
  train_done : Bool
  ave_done : Bool
  setsize : Nat
  sa_text : List String
  dna_tochar : List Int
  pixaa_u : List (List Pix)
  pixaa : List (List Pix)
  ptaa_u : List (List (ℚ × ℚ))
  ptaa : List (List (ℚ × ℚ))
  naasum_u : List (List Nat)
  naasum : List (List Nat)
  pixa_u : List Pix
  pixa : List Pix
  pta_u : List (ℚ × ℚ)
  pta : List (ℚ × ℚ)
  nasum_u : List Nat
  nasum : List Nat
  minwidth_u : Nat
  minheight_u : Nat
  maxwidth_u : Nat
  maxheight_u : Nat
  minwidth : Nat
  maxwidth : Nat
  min_splitw : Nat
  min_splith : Nat
  max_splith : Nat

/-- The accumulation loop of pixaAccumulateSamples as a per-pixel sum:
each of the n samples is translated by the truncated difference of its
centroid and the average centroid, placed on the maxw times maxh
canvas, and the translated bitmaps are summed. -/
def alignedSum (samps : List Pix) (pts : List (ℚ × ℚ)) (xave yave : ℚ)
    (maxw maxh : Nat) (n : Nat) (x y : Nat) : Nat :=
  ((List.range n).map (fun i =>
    if shiftedBit (samps.getD i (blankPix 1 1))
        (truncQ ((pts.getD i (0, 0)).1 - xave))
        (truncQ ((pts.getD i (0, 0)).2 - yave)) maxw maxh x y
    then 1 else 0)).sum

/-- Centroid-aligned accumulation of a class (pixaAccumulateSamples):
uses at most the first 256 samples, averages the supplied centroids,
and sums the samples translated so every centroid sits at the average.
The branch of the source that generates centroids when none are
supplied is never taken by the callers modelled here
(recogAverageSamples always passes the stored centroids), and the
source reads the supplied pta in its averaging loop, so the centroid
list is a required argument.  Returns none on the error paths of the
source (length mismatch between the two lists, or an empty class). -/
def pixaAccumulateSamples (pixa : List Pix) (ptac : List (ℚ × ℚ)) :
    Option (SumPix × ℚ × ℚ) :=
  if ptac.length ≠ pixa.length then none
  else
    let n := min pixa.length 256
    if n = 0 then none
    else
      let pts := ptac.take n
      let xave := (pts.map Prod.fst).sum / (n : ℚ)
      let yave := (pts.map Prod.snd).sum / (n : ℚ)
      let maxw := (pixa.map Pix.w).foldr max 0
      let maxh := (pixa.map Pix.h).foldr max 0
      some (⟨maxw, maxh, alignedSum (pixa.take n) pts xave yave maxw maxh n⟩,
            xave, yave)

/-- Modelled from the spec: the composition of pixThresholdToBinary and
pixInvert used on the accumulated sum image (both routines live outside
src); a pixel of the resulting binary average is foreground exactly when
the accumulated value reaches the threshold. -/
def thresholdInvert (s : SumPix) (thresh : Nat) : Pix :=
  ⟨s.w, s.h, 1, fun x y => decide (thresh ≤ s.v x y), ""⟩

/-- The per-class body of the two averaging loops of
recogAverageSamples: a class with no samples gets a degenerate 1 times 1
placeholder with centroid (0, 0) and area 0; otherwise the accumulated
sum is thresholded at nsamp / 2 with nsamp special-cased from 1 to 2,
then inverted, and the centroid and foreground count are recorded.  The
error value of pixaAccumulateSamples (centroid list out of alignment)
also maps to the placeholder; that branch is unreachable under the
index-alignment invariant of the model. -/
def averageClass (pixat : List Pix) (ptat : List (ℚ × ℚ)) :
    Pix × (ℚ × ℚ) × Nat :=
  let nsamp := min pixat.length 256
  if nsamp = 0 then (blankPix 1 1, (0, 0), 0)
  else
    match pixaAccumulateSamples pixat ptat with
    | none => (blankPix 1 1, (0, 0), 0)
    | some (pixsum, x, y) =>
      let nsamp2 := if nsamp = 1 then 2 else nsamp
      let pix2 := thresholdInvert pixsum (nsamp2 / 2)
      (pix2, (x, y), pixCountPixels pix2)

/-- Modelled from the spec: pixaSelectBySize with L_SELECT_IF_BOTH and
L_SELECT_IF_GTE (outside src) keeps the images whose width and height
both reach the given minima. -/
def selectBySizeGTE (pixa : List Pix) (wmin hmin : Nat) : List Pix :=
  pixa.filter (fun p => decide (wmin ≤ p.w) && decide (hmin ≤ p.h))

/-- Modelled from the spec: pixaSizeRange (outside src) returns the
minimum and maximum width and height over a list of images. -/
def pixaSizeRangeFull (pixa : List Pix) : Nat × Nat × Nat × Nat :=
  ((pixa.map Pix.w).foldr min 1000000,
   (pixa.map Pix.h).foldr min 1000000,
   (pixa.map Pix.w).foldr max 0,
   (pixa.map Pix.h).foldr max 0)

/-- Average-template synthesis (recogAverageSamples): a no-op returning
success when the averages are already computed; otherwise both the
unscaled and the modified collections are averaged per class, the size
range of the non-degenerate unscaled averages is recorded, the splitting
bounds are derived, and the averages-computed flag is set.  The debug
display argument of the source only renders images and is omitted. -/
def recogAverageSamples (r : Recog) : Nat × Recog :=
  if r.ave_done then (0, r)
  else
    let size := r.setsize
    let resU := (List.range size).map (fun i =>
      averageClass (r.pixaa_u.getD i []) (r.ptaa_u.getD i []))
    let pixaU := resU.map (fun t => t.1)
    let selU := pixaSizeRangeFull (selectBySizeGTE pixaU 5 5)
    let resS := (List.range size).map (fun i =>
      averageClass (r.pixaa.getD i []) (r.ptaa.getD i []))
    let pixaS := resS.map (fun t => t.1)
    let selS := pixaSizeRangeFull (selectBySizeGTE pixaS 5 5)
    (0, { r with
      pixa_u := pixaU
      pta_u := resU.map (fun t => t.2.1)
      nasum_u := resU.map (fun t => t.2.2)
      pixa := pixaS
      pta := resS.map (fun t => t.2.1)
      nasum := resS.map (fun t => t.2.2)
      minwidth_u := selU.1
      minheight_u := selU.2.1
      maxwidth_u := selU.2.2.1
      maxheight_u := selU.2.2.2
      minwidth := selS.1
      maxwidth := selS.2.2.1
      min_splitw := max 5 (selU.1 - 5)
      min_splith := max 5 (selU.2.1 - 5)
      max_splith := selU.2.2.2 + 12
      ave_done := true })

/-- Maximum of a list of scores.  Modelled from the spec: numaGetMax
(outside src) returns the maximum score in the class; correlation
scores lie in [0, 1], so the large negative initial value of the C
accumulator never survives. -/
def listMax : List ℚ → ℚ
  | [] => 0
  | [a] => a
  | a :: b :: t => max a (listMax (b :: t))

/-- Insertion into an ascending list, for the sort below. -/
def insertAsc (a : ℚ) : List ℚ → List ℚ
  | [] => [a]
  | b :: t => if a ≤ b then a :: b :: t else b :: insertAsc a t

/-- Ascending insertion sort of a score list. -/
def sortAsc : List ℚ → List ℚ
  | [] => []
  | a :: t => insertAsc a (sortAsc t)

/-- Modelled from the spec: numaGetRankValue (outside src) returns the
score at the given rank fraction of the sorted score distribution (the
score list sorted ascending, indexed at the fraction of the top index,
rounded to nearest); 0 on an empty list. -/
def rankValue (scores : List ℚ) (fract : ℚ) : ℚ :=
  (sortAsc scores).getD
    (truncQ (fract * ((scores.length : ℚ) - 1) + 1 / 2)).toNat 0

/-- Parameter clamping at the head of recogRemoveOutliers: cap at 1,
then replace a non-positive value by the default. -/
def clampParam (v d : ℚ) : ℚ :=
  if min v 1 ≤ 0 then d else min v 1

/-- Correlation collaborator signature: pixCorrelationScoreSimple
(outside src) as a pure function of the two images, their foreground
areas, the centroid difference, and the x and y shift tolerances. -/
def CorrFun : Type :=
  Pix → Pix → Nat → Nat → ℚ → ℚ → Nat → Nat → ℚ

/-- The score list built by the inner j loop of recogRemoveOutliers for
class i of the scaled recognizer r1: each class member is matched
against the class average with tolerance 5 in both axes. -/
def classScores (corr : CorrFun) (r1 : Recog) (i : Nat) : List ℚ :=
  let pix1 := r1.pixa.getD i (blankPix 1 1)
  let xy1 := r1.pta.getD i (0, 0)
  let area1 := r1.nasum.getD i 0
  let pixa := r1.pixaa.getD i []
  let pta := r1.ptaa.getD i []
  let nasum := r1.naasum.getD i []
  (List.range pixa.length).map (fun j =>
    corr pix1 (pixa.getD j (blankPix 1 1)) area1 (nasum.getD j 0)
      (xy1.1 - (pta.getD j (0, 0)).1) (xy1.2 - (pta.getD j (0, 0)).2) 5 5)

/-- The retention threshold of recogRemoveOutliers for class i: the
minimum of the maximal class score, the minimum score parameter, and
the rank score at the 1 - minfract quantile. -/
def classThreshold (corr : CorrFun) (r1 : Recog) (ms mf : ℚ) (i : Nat) : ℚ :=
  let s := classScores corr r1 i
  min (listMax s) (min ms (rankValue s (1 - mf)))

/-- The per-class body of recogRemoveOutliers: samples scoring at or
above the class threshold contribute their unscaled original to the
kept output; the others go to the removed diagnostics together with
their scores.  The unscaled original is fetched by index with
pixaaGetPix, which yields nothing when the index is out of range of the
unscaled class (the source then adds no image). -/
def removeOutliersClass (corr : CorrFun) (r1 : Recog) (ms mf : ℚ) (i : Nat) :
    List Pix × List Pix × List ℚ :=
  let nascore := classScores corr r1 i
  let threshscore := classThreshold corr r1 ms mf i
  let n := (r1.pixaa.getD i []).length
  let kept := (List.range n).filterMap (fun j =>
    if threshscore ≤ nascore.getD j 0 then (r1.pixaa_u.getD i [])[j]? else none)
  let rem := (List.range n).filterMap (fun j =>
    if threshscore ≤ nascore.getD j 0 then none else (r1.pixaa_u.getD i [])[j]?)
  let remScores := (List.range n).filterMap (fun j =>
    if threshscore ≤ nascore.getD j 0 then none else some (nascore.getD j 0))
  (kept, rem, remScores)

/-- Outlier removal (recogRemoveOutliers).  The two debug output
destinations are modelled as request flags paired with written values:
the outer Option is none when the caller did not supply that
destination, and the inner value is what the function wrote there (none
for the NULL written at entry).  Requesting exactly one of the two is
an error: the function returns NULL having only nulled the supplied
destination.  Otherwise the parameters are clamped, a height-scaled
recognizer is built from the input templates by recogCreateFromPixa
(outside src, passed in as buildRecog), its averages are computed, and
every class is filtered by the per-class body. -/
def recogRemoveOutliers (buildRecog : List Pix → Recog) (corr : CorrFun)
    (pixas : List Pix) (minscore minfract : ℚ) (wantRem wantScores : Bool) :
    Option (List Pix) × Option (Option (List Pix)) × Option (Option (List ℚ)) :=
  let remDest : Option (Option (List Pix)) :=
    if wantRem then some none else none
  let scoreDest : Option (Option (List ℚ)) :=
    if wantScores then some none else none
  if wantRem ≠ wantScores then (none, remDest, scoreDest)
  else
    let ms := clampParam minscore (3 / 4)
    let mf := clampParam minfract (1 / 2)
    let r1 := (recogAverageSamples (buildRecog pixas)).2
    let res := (List.range r1.setsize).map
      (fun i => removeOutliersClass corr r1 ms mf i)
    (some ((res.map (fun t => t.1)).flatten),
     if wantRem then some (some ((res.map (fun t => t.2.1)).flatten)) else none,
     if wantScores then some (some ((res.map (fun t => t.2.2)).flatten)) else none)

/-- A bounding box, as returned by the connected component and box
container collaborators. -/
structure Box where
  x : Int
  y : Int
  w : Int
  h : Int
deriving DecidableEq

/-- External image and box collaborators consumed by the ingestion
functions (all live outside src and are passed in as pure functions,
as the spec describes them). -/
structure Collab where
  pixClipRectangle : Pix → Box → Pix
  pixConvertTo1 : Pix → Nat → Pix
  pixClipToForeground : Pix → Option Pix
  pixMorphCloseSeq : Pix → Pix
  pixConnComp : Pix → List Box
  boxaCombineOverlaps : List Box → List Box
  boxaSelectBySize : List Box → Nat → Nat → List Box
  boxaSortByX : List Box → List Box

/-- Label resolution shared by the single and the multi ingestion path:
an explicit nonempty text argument wins, otherwise the nonempty text
embedded in the image; nothing resolvable is an error. -/
def resolveText (pixs : Pix) (text : Option String) : Option String :=
  let textin : Bool := match text with
    | some t => decide (t ≠ "")
    | none => false
  let textinpix : Bool := decide (pixs.text ≠ "")
  if textin = false ∧ textinpix = false then none
  else some (if textin then text.getD "" else pixs.text)

/-- Optional crop to a box followed by binarization when the depth
exceeds 1, shared by both ingestion paths. -/
def binarizeInput (cb : Collab) (r : Recog) (pixs : Pix) (box : Option Box) : Pix :=
  let pixc := match box with
    | some b => cb.pixClipRectangle pixs b
    | none => pixs
  if 1 < pixc.d then cb.pixConvertTo1 pixc r.threshold else pixc

/-- The segmentation pipeline of recogProcessMultLabeled: a large
vertical morphological closing, 8-connected components, merging of
overlapping boxes, and removal of boxes not exceeding 2 by 8. -/
def multSegmentation (cb : Collab) (pixb : Pix) : List Box :=
  cb.boxaSelectBySize (cb.boxaCombineOverlaps (cb.pixConnComp
    (cb.pixMorphCloseSeq pixb))) 2 8

/-- Single-symbol ingestion (recogProcessSingleLabeled): resolve the
label, crop and binarize, clip to the foreground, and return one
labeled image; an unresolvable label or an empty foreground is an
error. -/
def recogProcessSingleLabeled (cb : Collab) (r : Recog) (pixs : Pix)
    (box : Option Box) (text : Option String) : Nat × Option (List Pix) :=
  match resolveText pixs text with
  | none => (1, none)
  | some textdata =>
    let pixb := binarizeInput cb r pixs box
    match cb.pixClipToForeground pixb with
    | none => (1, none)
    | some pixd => (0, some [{ pixd with text := textdata }])

/-- Multi-symbol ingestion (recogProcessMultLabeled): resolve the label
string, crop and binarize, segment; when the region count differs from
the label length the call fails returning nothing, otherwise the
regions are sorted left to right and clipped out, each labeled with the
corresponding character of the label string. -/
def recogProcessMultLabeled (cb : Collab) (r : Recog) (pixs : Pix)
    (box : Option Box) (text : Option String) : Nat × Option (List Pix) :=
  match resolveText pixs text with
  | none => (1, none)
  | some textdata =>
    let pixb := binarizeInput cb r pixs box
    let boxa3 := multSegmentation cb pixb
    if boxa3.length ≠ textdata.length then (1, none)
    else
      let boxa4 := cb.boxaSortByX boxa3
      (0, some ((List.range boxa3.length).map (fun i =>
        { cb.pixClipRectangle pixb (boxa4.getD i ⟨0, 0, 0, 0⟩) with
          text := String.singleton (textdata.toList.getD i (Char.ofNat 0)) })))

/-- Modelled from the spec: recogGetClassIndex (outside src) resolves a
label to the index of an existing class, or appends a new class (next
dense index) to the label bookkeeping and reports it as new. -/
def recogGetClassIndexModel (r : Recog) (charint : Int) (text : String) :
    Nat × Bool × Recog :=
  match r.dna_tochar.findIdx? (fun v => v = charint) with
  | some idx => (idx, false, r)
  | none => (r.setsize, true,
      { r with dna_tochar := r.dna_tochar ++ [charint],
               sa_text := r.sa_text ++ [text],
               setsize := r.setsize + 1 })

/-- Storing one sample into class index of the unscaled store
(pixaaAddPix after the counter increment): the running sample counter
always advances; the store changes only when the index is in range, as
pixaaAddPix rejects an out of range index. -/
def addPixToClass (r : Recog) (index : Nat) (p : Pix) : Recog :=
  { r with num_samples := r.num_samples + 1,
           pixaa_u := r.pixaa_u.set index ((r.pixaa_u.getD index []) ++ [p]) }

/-- Sample ingestion (recogAddSamples): an error leaving the model
untouched when training is finished; otherwise each image is classified
by its embedded label (through the character conversion collaborator
l_convertCharstrToInt, outside src, passed in as convert) unless a
forced class index is given; a label naming a new class first extends
the class array; images with unconvertible labels are skipped. -/
def recogAddSamples (convert : String → Option Int) (r : Recog)
    (pixa : List Pix) (classindex : Int) : Nat × Recog :=
  if r.train_done then (1, r)
  else
    (0, pixa.foldl (fun acc pixb =>
      if classindex < 0 then
        match convert pixb.text with
        | none => acc
        | some charint =>
          let gci := recogGetClassIndexModel acc charint pixb.text
          let acc1 := gci.2.2
          let acc2 :=
            if gci.2.1 ∧ gci.1 = acc1.pixaa_u.length
            then { acc1 with pixaa_u := acc1.pixaa_u ++ [[]] }
            else acc1
          addPixToClass acc2 gci.1 pixb
      else addPixToClass acc classindex.toNat pixb) r)

/-- Labeled training entry point (recogTrainLabeled): single or multi
ingestion according to the flag, failing without touching the model
when ingestion fails, then adding the produced samples; the return
value of recogAddSamples is discarded by the source. -/
def recogTrainLabeled (cb : Collab) (convert : String → Option Int)
    (r : Recog) (pixs : Pix) (box : Option Box) (text : Option String)
    (multflag : Nat) : Nat × Recog :=
  let pr := if multflag = 0 then recogProcessSingleLabeled cb r pixs box text
            else recogProcessMultLabeled cb r pixs box text
  if pr.1 ≠ 0 then (1, r)
  else (0, (recogAddSamples convert r (pr.2.getD []) (-1)).2)

/-- The normalization pipeline of recogTrainFromBoot: binarize every
input when any depth exceeds 1 (through the binarization collaborator),
scale isotropically to the boot height of the auxiliary model, and
optionally normalize the stroke width (pixaSetStrokeWidth applies the
stroke collaborator to each image in turn). -/
def bootNormalize (convertTo1 : Pix → Nat → Pix)
    (scaleToSize : Pix → Nat → Nat → Pix) (stroke : Pix → Nat → Pix)
    (recogboot : Recog) (pixas : List Pix) (threshold : Nat) : List Pix :=
  let maxdepth := (pixas.map Pix.d).foldr max 0
  let pixa1 := if maxdepth = 1 then pixas
               else pixas.map (fun p => convertTo1 p threshold)
  let pixa2 := pixa1.map (fun p => scaleToSize p 0 recogboot.scaleh)
  if 0 < recogboot.linew then pixa2.map (fun p => stroke p recogboot.linew)
  else pixa2

/-- The image the auxiliary model actually identifies for input index i:
the normalized copy with any pre-existing label stripped. -/
def bootStripped (convertTo1 : Pix → Nat → Pix)
    (scaleToSize : Pix → Nat → Nat → Pix) (stroke : Pix → Nat → Pix)
    (recogboot : Recog) (pixas : List Pix) (threshold : Nat) (i : Nat) : Pix :=
  { (bootNormalize convertTo1 scaleToSize stroke recogboot pixas
      threshold).getD i (blankPix 1 1) with text := "" }

/-- Bootstrap labeling (recogTrainFromBoot): each input is normalized,
stripped of its label, and identified by the auxiliary model
(recogIdentifyPix and rchExtract, outside src, passed in as the
identify collaborator returning the best score and winning label); the
output collects, for exactly the inputs whose score reaches minscore, a
copy of the original input carrying the winning label.  The diagnostic
pixa that the source may also fill is debug-only state and is not
modelled.  An empty input set is an error. -/
def recogTrainFromBoot (identify : Pix → ℚ × String)
    (convertTo1 : Pix → Nat → Pix) (scaleToSize : Pix → Nat → Nat → Pix)
    (stroke : Pix → Nat → Pix) (recogboot : Recog) (pixas : List Pix)
    (minscore : ℚ) (threshold : Nat) : Option (List Pix) :=
  if pixas.length = 0 then none
  else
    some ((List.range (bootNormalize convertTo1 scaleToSize stroke recogboot
        pixas threshold).length).filterMap (fun i =>
      if minscore ≤ (identify (bootStripped convertTo1 scaleToSize stroke
          recogboot pixas threshold i)).1
      then some { pixas.getD i (blankPix 1 1) with
        text := (identify (bootStripped convertTo1 scaleToSize stroke
          recogboot pixas threshold i)).2 }
      else none))

/-- Guarded write into a numa of indicator values (numaSetValue rejects
an out of range index, and the source ignores its return value). -/
def naSetValue (na : List Nat) (idx : Int) (v : Nat) : List Nat :=
  if 0 ≤ idx ∧ idx.toNat < na.length then na.set idx.toNat v else na

/-- Detection of charset labels with no class in the model
(recogAddMissingClassStrings): nothing is reported unless the charset
is the digit charset with fewer than 10 classes; otherwise an indicator
array over the charset is cleared at the digit index of the first
character of each present class label, and the digits still flagged are
emitted — the emission loop of the source runs over the class count,
not the charset size. -/
def recogAddMissingClassStrings (r : Recog) : List String :=
  let nclass := r.pixaa_u.length
  if r.charset_type ≠ 1 ∨ (r.charset_type = 1 ∧ nclass = 10) then []
  else
    let na := (List.range nclass).foldl (fun na i =>
      naSetValue na
        ((Int.ofNat (((r.sa_text.getD i "").toList.headD
          (Char.ofNat 0)).toNat)) - 48) 0)
      (List.replicate r.charset_size 1)
    (List.range nclass).filterMap (fun i =>
      if na.getD i 0 = 1
      then some (String.singleton (Char.ofNat (48 + i))) else none)

/-- Modelled from the spec: numaGetMin (outside src) returns the
minimum per-class sample count; the value on an empty list is the large
initial accumulator of the C routine. -/
def listMinNat : List Nat → Nat
  | [] => 1000000000
  | [a] => a
  | a :: b :: t => min a (listMinNat (b :: t))

/-- Padding decision (recogIsPaddingNeeded): no padding when every
charset class is populated and the smallest class count reaches the
configured floor; otherwise the deficient label list is the missing
class labels followed by the labels of the present classes under the
floor. -/
def recogIsPaddingNeeded (r : Recog) : Option (List String) :=
  let naclass := r.pixaa_u.map List.length
  let nclass := naclass.length
  if nclass = r.charset_size ∧ r.min_nopad ≤ listMinNat naclass then none
  else
    some (recogAddMissingClassStrings r ++
      (List.range nclass).filterMap (fun i =>
        if naclass.getD i 0 < r.min_nopad
        then some (r.sa_text.getD i "") else none))

/-- Digit training set padding (recogPadDigitTrainingSet): a no-op on
the input model when no padding is needed; otherwise the pad templates
are gathered (recogAddDigitPadTemplates combined with the boot template
generators, outside the failure-free path exercised here, passed in as
padTemplates) and a fresh recognizer is built from the merged template
set (recogCreateFromPixa, outside src, passed in as makeRecog),
replacing the caller side model. -/
def recogPadDigitTrainingSet (makeRecog : List Pix → Nat → Nat → Nat → Nat → Recog)
    (padTemplates : Recog → List String → Option (List Pix))
    (r : Recog) (scaleh linew : Nat) : Nat × Recog :=
  match recogIsPaddingNeeded r with
  | none => (0, r)
  | some sa =>
    match padTemplates r sa with
    | none => (1, r)
    | some pixa => (0, makeRecog pixa scaleh linew r.threshold r.maxyshift)

/-- Indexing a mapped range list with a default. -/
lemma getD_map_range {α : Type} (f : Nat → α) (n i : Nat) (hi : i < n) (d : α) :
    ((List.range n).map f).getD i d = f i := by
  rw [List.getD_eq_getElem?_getD, List.getElem?_map, List.getElem?_range hi]
  rfl

/-- The maximum of a nonempty score list is one of its members. -/
lemma listMax_mem : ∀ (l : List ℚ), l ≠ [] → listMax l ∈ l
  | [], h => absurd rfl h
  | [a], _ => by simp [listMax]
  | a :: b :: t, _ => by
    show max a (listMax (b :: t)) ∈ a :: b :: t
    rcases le_total a (listMax (b :: t)) with h | h
    · rw [max_eq_right h]
      exact List.mem_cons_of_mem a (listMax_mem (b :: t) (by simp))
    · rw [max_eq_left h]
      exact List.mem_cons_self a _

/-- A lower bound of all members bounds the list minimum. -/
lemma le_listMinNat (m : Nat) :
    ∀ (l : List Nat), l ≠ [] → (∀ x ∈ l, m ≤ x) → m ≤ listMinNat l
  | [], h, _ => absurd rfl h
  | [a], _, h => by simpa [listMinNat] using h a (by simp)
  | a :: b :: t, _, h => by
    show m ≤ min a (listMinNat (b :: t))
    refine le_min (h a (by simp)) (le_listMinNat m (b :: t) (by simp) ?_)
    intro x hx
    exact h x (List.mem_cons_of_mem a hx)

/-- A fresh recognizer model with the default configuration and no
samples, reused as the base for the concrete instances below. -/
def emptyRecog : Recog :=
  { scalew := 0, scaleh := 40, linew := 0, threshold := 128, maxyshift := 1,
    charset_type := 1, charset_size := 10, min_nopad := 3, num_samples := 0,
    train_done := false, ave_done := false, setsize := 0,
    sa_text := [], dna_tochar := [], pixaa_u := [], pixaa := [],
    ptaa_u := [], ptaa := [], naasum_u := [], naasum := [],
    pixa_u := [], pixa := [], pta_u := [], pta := [],
    nasum_u := [], nasum := [],
    minwidth_u := 0, minheight_u := 0, maxwidth_u := 0, maxheight_u := 0,
    minwidth := 0, maxwidth := 0,
    min_splitw := 0, min_splith := 0, max_splith := 0 }

/-- C3: recogAverageSamples is idempotent: on a model whose
averages-computed flag is already set, a second call returns success
without recomputing anything, leaving every average template, centroid,
and foreground-area record bit-identical to the state after the first
call (the model is returned unchanged). -/
theorem recogAverageSamples_idempotent (r : Recog) (h : r.ave_done = true) :
    recogAverageSamples r = (0, r) := by
  unfold recogAverageSamples
  simp [h]

def recogC3 : Recog := { emptyRecog with ave_done := true }

theorem recogAverageSamples_idempotent_witness :
    recogAverageSamples recogC3 = (0, recogC3) :=
  recogAverageSamples_idempotent recogC3 rfl

/-- C5: on a model whose training-finalized flag is set, recogAddSamples
fails with an error and adds nothing: the model is returned unchanged,
so no sample is stored in any class and the running sample counter is
unchanged. -/
theorem recogAddSamples_train_done_unchanged (convert : String → Option Int)
    (r : Recog) (pixa : List Pix) (classindex : Int) (h : r.train_done = true) :
    recogAddSamples convert r pixa classindex = (1, r) := by
  unfold recogAddSamples
  simp [h]

def recogC5 : Recog := { emptyRecog with train_done := true }

theorem recogAddSamples_train_done_unchanged_witness :
    recogAddSamples (fun _ => none) recogC5 [] (-1) = (1, recogC5) :=
  recogAddSamples_train_done_unchanged (fun _ => none) recogC5 [] (-1) rfl

/-- C10: recogRemoveOutliers requires its two optional diagnostic
outputs to be requested together: a call supplying exactly one of the
two destinations returns an error (NULL result) without computing
anything, and every supplied destination holds the NULL written at
entry. -/
theorem recogRemoveOutliers_single_debug_output_error
    (buildRecog : List Pix → Recog) (corr : CorrFun) (pixas : List Pix)
    (minscore minfract : ℚ) (wantRem wantScores : Bool)
    (h : wantRem ≠ wantScores) :
    recogRemoveOutliers buildRecog corr pixas minscore minfract
        wantRem wantScores
      = (none, (if wantRem then some none else none),
         (if wantScores then some none else none)) := by
  unfold recogRemoveOutliers
  simp [h]

def buildC10 : List Pix → Recog := fun _ => emptyRecog

def corrC10 : CorrFun := fun _ _ _ _ _ _ _ _ => 0

theorem recogRemoveOutliers_single_debug_output_error_witness :
    recogRemoveOutliers buildC10 corrC10 [] 1 1 true false
      = (none, some none, none) :=
  recogRemoveOutliers_single_debug_output_error buildC10 corrC10 [] 1 1
    true false (by decide)

/-- C8: recogPadDigitTrainingSet is a no-op when no padding is
required: if the populated class count equals the expected charset size
and every class holds at least the configured floor of unscaled
samples, the call returns success with the original model, so class
count, per-class sample counts, and label mapping are unchanged. -/
theorem recogPadDigitTrainingSet_noop
    (makeRecog : List Pix → Nat → Nat → Nat → Nat → Recog)
    (padTemplates : Recog → List String → Option (List Pix))
    (r : Recog) (scaleh linew : Nat)
    (hall : r.pixaa_u.length = r.charset_size)
    (hpos : 0 < r.pixaa_u.length)
    (hfloor : ∀ cls ∈ r.pixaa_u, r.min_nopad ≤ cls.length) :
    recogPadDigitTrainingSet makeRecog padTemplates r scaleh linew = (0, r) := by
  have hnone : recogIsPaddingNeeded r = none := by
    unfold recogIsPaddingNeeded
    have h1 : (r.pixaa_u.map List.length).length = r.charset_size := by
      simpa using hall
    have h2 : r.min_nopad ≤ listMinNat (r.pixaa_u.map List.length) := by
      apply le_listMinNat
      · intro hemp
        rw [List.map_eq_nil_iff] at hemp
        rw [hemp] at hpos
        exact absurd hpos (by simp)
      · intro x hx
        obtain ⟨cls, hcls, rfl⟩ := List.mem_map.mp hx
        exact hfloor cls hcls
    simp [h1, h2]
  unfold recogPadDigitTrainingSet
  rw [hnone]

def pixC8 : Pix := ⟨2, 2, 1, fun _ _ => true, "0"⟩

def recogC8 : Recog :=
  { emptyRecog with
    charset_size := 1
    min_nopad := 1
    sa_text := ["0"]
    setsize := 1
    pixaa_u := [[pixC8]] }

theorem recogPadDigitTrainingSet_noop_witness :
    recogPadDigitTrainingSet (fun _ _ _ _ _ => emptyRecog) (fun _ _ => none)
      recogC8 40 0 = (0, recogC8) :=
  recogPadDigitTrainingSet_noop (fun _ _ _ _ _ => emptyRecog)
    (fun _ _ => none) recogC8 40 0 (by decide) (by decide) (by decide)

/-- C4: a multi-symbol ingestion through recogTrainLabeled fails
without adding anything whenever the region count produced by the
segmentation pipeline (closing, overlap merging, small-region removal)
differs from the length of the resolved label string: the call returns
an error and the model, in particular its sample store and running
sample counter, is unchanged. -/
theorem recogTrainLabeled_mult_mismatch_unchanged (cb : Collab)
    (convert : String → Option Int) (r : Recog) (pixs : Pix)
    (box : Option Box) (text : Option String) (td : String)
    (htd : resolveText pixs text = some td)
    (hmis : (multSegmentation cb (binarizeInput cb r pixs box)).length
      ≠ td.length) :
    recogTrainLabeled cb convert r pixs box text 1 = (1, r) := by
  unfold recogTrainLabeled recogProcessMultLabeled
  rw [htd]
  simp [hmis]

def cbC4 : Collab :=
  { pixClipRectangle := fun p _ => p
    pixConvertTo1 := fun p _ => p
    pixClipToForeground := fun p => some p
    pixMorphCloseSeq := fun p => p
    pixConnComp := fun _ => []
    boxaCombineOverlaps := fun l => l
    boxaSelectBySize := fun l _ _ => l
    boxaSortByX := fun l => l }

def pixC4 : Pix := ⟨3, 3, 1, fun _ _ => true, "ab"⟩

theorem recogTrainLabeled_mult_mismatch_unchanged_witness :
    recogTrainLabeled cbC4 (fun _ => none) emptyRecog pixC4 none none 1
      = (1, emptyRecog) :=
  recogTrainLabeled_mult_mismatch_unchanged cbC4 (fun _ => none) emptyRecog
    pixC4 none none "ab" rfl (by decide)

def pixC7 : Pix := ⟨2, 3, 1, fun _ _ => true, "1"⟩

def recogC7 : Recog :=
  { emptyRecog with
    charset_type := 1
    charset_size := 10
    min_nopad := 1
    sa_text := ["1"]
    setsize := 1
    pixaa_u := [[pixC7]] }

/-- C7: evaluation of the padding-need computation on a digit model
holding a single class labeled "1" with one sample and floor 1.  Every
digit other than "1" is expected by the charset and absent from the
model, so the claim requires the deficient set to contain "0" and "2"
through "9"; the code reports only ["0"], because the emission loop of
recogAddMissingClassStrings runs over the class count instead of the
charset size.  In particular "9" is absent from the model yet missing
from the reported deficient set. -/
theorem recogIsPaddingNeeded_missing_digit_dropped :
    recogIsPaddingNeeded recogC7 = some ["0"]
    ∧ "9" ∉ (recogIsPaddingNeeded recogC7).getD []
    ∧ "9" ∉ recogC7.sa_text := by
  refine ⟨by decide, by decide, by decide⟩

/-- Unscaled average list produced by a real (not short-circuited) run
of recogAverageSamples. -/
lemma recogAverageSamples_pixa_u (r : Recog) (h : r.ave_done = false) :
    (recogAverageSamples r).2.pixa_u
      = ((List.range r.setsize).map (fun i =>
          averageClass (r.pixaa_u.getD i []) (r.ptaa_u.getD i []))).map
          (fun t => t.1) := by
  unfold recogAverageSamples
  rw [if_neg (by simp [h])]

/-- Unscaled average centroid list produced by a real run of
recogAverageSamples. -/
lemma recogAverageSamples_pta_u (r : Recog) (h : r.ave_done = false) :
    (recogAverageSamples r).2.pta_u
      = ((List.range r.setsize).map (fun i =>
          averageClass (r.pixaa_u.getD i []) (r.ptaa_u.getD i []))).map
          (fun t => t.2.1) := by
  unfold recogAverageSamples
  rw [if_neg (by simp [h])]

/-- Unscaled average foreground-area list produced by a real run of
recogAverageSamples. -/
lemma recogAverageSamples_nasum_u (r : Recog) (h : r.ave_done = false) :
    (recogAverageSamples r).2.nasum_u
      = ((List.range r.setsize).map (fun i =>
          averageClass (r.pixaa_u.getD i []) (r.ptaa_u.getD i []))).map
          (fun t => t.2.2) := by
  unfold recogAverageSamples
  rw [if_neg (by simp [h])]

/-- Modified average list produced by a real run of
recogAverageSamples. -/
lemma recogAverageSamples_pixa (r : Recog) (h : r.ave_done = false) :
    (recogAverageSamples r).2.pixa
      = ((List.range r.setsize).map (fun i =>
          averageClass (r.pixaa.getD i []) (r.ptaa.getD i []))).map
          (fun t => t.1) := by
  unfold recogAverageSamples
  rw [if_neg (by simp [h])]

/-- Modified average centroid list produced by a real run of
recogAverageSamples. -/
lemma recogAverageSamples_pta (r : Recog) (h : r.ave_done = false) :
    (recogAverageSamples r).2.pta
      = ((List.range r.setsize).map (fun i =>
          averageClass (r.pixaa.getD i []) (r.ptaa.getD i []))).map
          (fun t => t.2.1) := by
  unfold recogAverageSamples
  rw [if_neg (by simp [h])]

/-- Modified average foreground-area list produced by a real run of
recogAverageSamples. -/
lemma recogAverageSamples_nasum (r : Recog) (h : r.ave_done = false) :
    (recogAverageSamples r).2.nasum
      = ((List.range r.setsize).map (fun i =>
          averageClass (r.pixaa.getD i []) (r.ptaa.getD i []))).map
          (fun t => t.2.2) := by
  unfold recogAverageSamples
  rw [if_neg (by simp [h])]

/-- The averaging body on an empty class is the degenerate
placeholder. -/
lemma averageClass_nil (ptat : List (ℚ × ℚ)) :
    averageClass [] ptat = (blankPix 1 1, (0, 0), 0) := rfl

/-- C9: for a class with zero samples, recogAverageSamples records a
degenerate 1 times 1 average template with centroid (0, 0) and
foreground area 0, in both the unscaled and the modified pass, and the
1 times 1 placeholder cannot belong to the size-filtered list over
which the min and max width and height of the unscaled averages are
computed. -/
theorem recogAverageSamples_empty_class_placeholder (r : Recog) (i : Nat)
    (hdone : r.ave_done = false) (hi : i < r.setsize)
    (hu : r.pixaa_u.getD i [] = []) (hs : r.pixaa.getD i [] = []) :
    (recogAverageSamples r).2.pixa_u.getD i (blankPix 1 1) = blankPix 1 1
    ∧ (recogAverageSamples r).2.pta_u.getD i (0, 0) = (0, 0)
    ∧ (recogAverageSamples r).2.nasum_u.getD i 1 = 0
    ∧ (recogAverageSamples r).2.pixa.getD i (blankPix 1 1) = blankPix 1 1
    ∧ (recogAverageSamples r).2.pta.getD i (0, 0) = (0, 0)
    ∧ (recogAverageSamples r).2.nasum.getD i 1 = 0
    ∧ blankPix 1 1 ∉ selectBySizeGTE ((recogAverageSamples r).2.pixa_u) 5 5 := by
  refine ⟨?_, ?_, ?_, ?_, ?_, ?_, ?_⟩
  · rw [recogAverageSamples_pixa_u r hdone, List.map_map,
      getD_map_range _ _ _ hi]
    simp only [Function.comp]
    rw [hu, averageClass_nil]
  · rw [recogAverageSamples_pta_u r hdone, List.map_map,
      getD_map_range _ _ _ hi]
    simp only [Function.comp]
    rw [hu, averageClass_nil]
  · rw [recogAverageSamples_nasum_u r hdone, List.map_map,
      getD_map_range _ _ _ hi]
    simp only [Function.comp]
    rw [hu, averageClass_nil]
  · rw [recogAverageSamples_pixa r hdone, List.map_map,
      getD_map_range _ _ _ hi]
    simp only [Function.comp]
    rw [hs, averageClass_nil]
  · rw [recogAverageSamples_pta r hdone, List.map_map,
      getD_map_range _ _ _ hi]
    simp only [Function.comp]
    rw [hs, averageClass_nil]
  · rw [recogAverageSamples_nasum r hdone, List.map_map,
      getD_map_range _ _ _ hi]
    simp only [Function.comp]
    rw [hs, averageClass_nil]
  · intro hmem
    have hpred := List.of_mem_filter hmem
    simp [blankPix] at hpred

def recogC9 : Recog :=
  { emptyRecog with
    setsize := 1
    sa_text := ["0"]
    pixaa_u := [[]]
    pixaa := [[]]
    ptaa_u := [[]]
    ptaa := [[]] }

theorem recogAverageSamples_empty_class_placeholder_witness :
    (recogAverageSamples recogC9).2.pixa_u.getD 0 (blankPix 1 1) = blankPix 1 1
    ∧ (recogAverageSamples recogC9).2.pta_u.getD 0 (0, 0) = (0, 0)
    ∧ (recogAverageSamples recogC9).2.nasum_u.getD 0 1 = 0
    ∧ (recogAverageSamples recogC9).2.pixa.getD 0 (blankPix 1 1) = blankPix 1 1
    ∧ (recogAverageSamples recogC9).2.pta.getD 0 (0, 0) = (0, 0)
    ∧ (recogAverageSamples recogC9).2.nasum.getD 0 1 = 0
    ∧ blankPix 1 1 ∉ selectBySizeGTE ((recogAverageSamples recogC9).2.pixa_u) 5 5 :=
  recogAverageSamples_empty_class_placeholder recogC9 0 rfl (by decide) rfl rfl

/-- Truncation of zero is zero. -/
lemma truncQ_zero : truncQ 0 = 0 := by
  simp [truncQ]

/-- Accumulation of a singleton class: the centroid average is the one
centroid and the canvas is the size of the one sample. -/
lemma pixaAccumulateSamples_single (p : Pix) (c : ℚ × ℚ) :
    pixaAccumulateSamples [p] [c]
      = some (⟨max p.w 0, max p.h 0,
          alignedSum [p] [c] (c.1 / 1) (c.2 / 1) (max p.w 0) (max p.h 0) 1⟩,
          c.1 / 1, c.2 / 1) := by
  unfold pixaAccumulateSamples
  norm_num

/-- The average template of a singleton class is the one sample summed
with zero offset and thresholded at one. -/
lemma averageClass_single_eq (p : Pix) (c : ℚ × ℚ) :
    (averageClass [p] [c]).1
      = thresholdInvert ⟨max p.w 0, max p.h 0,
          alignedSum [p] [c] (c.1 / 1) (c.2 / 1) (max p.w 0) (max p.h 0) 1⟩ 1 := by
  unfold averageClass
  rw [pixaAccumulateSamples_single]
  norm_num

/-- On a singleton class the aligned sum is the indicator of the
translated sample with zero offset. -/
lemma alignedSum_single (p : Pix) (c : ℚ × ℚ) (x y : Nat) :
    alignedSum [p] [c] (c.1 / 1) (c.2 / 1) (max p.w 0) (max p.h 0) 1 x y
      = if shiftedBit p 0 0 (max p.w 0) (max p.h 0) x y then 1 else 0 := by
  unfold alignedSum
  simp [List.range_succ, truncQ_zero]

/-- A zero-offset raster placement inside a canvas of the sample size
reads back the sample bit. -/
lemma shiftedBit_zero (p : Pix) (x y : Nat) (hx : x < p.w) (hy : y < p.h) :
    shiftedBit p 0 0 (max p.w 0) (max p.h 0) x y = p.fg x y := by
  unfold shiftedBit
  rw [if_pos]
  · simp
  · refine ⟨by simp, ?_, by simp, ?_⟩
    · simp only [Nat.max_zero, min_self, sub_zero]
      exact_mod_cast hx
    · simp only [Nat.max_zero, min_self, sub_zero]
      exact_mod_cast hy

/-- The average of a single-sample class is bit-identical to the
sample. -/
lemma averageClass_single (p : Pix) (c : ℚ × ℚ) :
    bitEq (averageClass [p] [c]).1 p := by
  rw [averageClass_single_eq]
  refine ⟨by simp [thresholdInvert], by simp [thresholdInvert], ?_⟩
  intro x hx y hy
  have hxw : x < p.w := by simpa [thresholdInvert] using hx
  have hyh : y < p.h := by simpa [thresholdInvert] using hy
  simp only [Pix.bit, thresholdInvert]
  rw [if_pos, if_pos ⟨hxw, hyh⟩]
  · simp only [alignedSum_single p c x y, shiftedBit_zero p x y hxw hyh]
    cases hfg : p.fg x y <;> simp [hfg]
  · exact ⟨by simpa using hxw, by simpa using hyh⟩

/-- C2: for a class with exactly one sample, recogAverageSamples
produces an average template bit-identical to that sample, in the
unscaled pass and likewise in the modified pass: the accumulated sum of
the singleton class is thresholded at 1 (the sample count 1 is
special-cased to a divisor of 2) and polarity-inverted, so the single
sample passes through unchanged. -/
theorem recogAverageSamples_single_sample (r : Recog) (i : Nat)
    (p q : Pix) (c cq : ℚ × ℚ)
    (hdone : r.ave_done = false) (hi : i < r.setsize)
    (hu : r.pixaa_u.getD i [] = [p]) (hc : r.ptaa_u.getD i [] = [c])
    (hs : r.pixaa.getD i [] = [q]) (hcs : r.ptaa.getD i [] = [cq]) :
    bitEq ((recogAverageSamples r).2.pixa_u.getD i (blankPix 1 1)) p
    ∧ bitEq ((recogAverageSamples r).2.pixa.getD i (blankPix 1 1)) q := by
  constructor
  · rw [recogAverageSamples_pixa_u r hdone, List.map_map,
      getD_map_range _ _ _ hi]
    simp only [Function.comp]
    rw [hu, hc]
    exact averageClass_single p c
  · rw [recogAverageSamples_pixa r hdone, List.map_map,
      getD_map_range _ _ _ hi]
    simp only [Function.comp]
    rw [hs, hcs]
    exact averageClass_single q cq

def pixC2 : Pix := ⟨2, 2, 1, fun x y => decide (x = y), "3"⟩

def recogC2 : Recog :=
  { emptyRecog with
    setsize := 1
    sa_text := ["3"]
    pixaa_u := [[pixC2]]
    pixaa := [[pixC2]]
    ptaa_u := [[(1/2, 1/2)]]
    ptaa := [[(1/2, 1/2)]] }

theorem recogAverageSamples_single_sample_witness :
    bitEq ((recogAverageSamples recogC2).2.pixa_u.getD 0 (blankPix 1 1)) pixC2
    ∧ bitEq ((recogAverageSamples recogC2).2.pixa.getD 0 (blankPix 1 1)) pixC2 :=
  recogAverageSamples_single_sample recogC2 0 pixC2 pixC2 (1/2, 1/2) (1/2, 1/2)
    rfl (by decide) rfl rfl rfl rfl

/-- The normalization pipeline preserves the number of samples. -/
lemma bootNormalize_length (convertTo1 : Pix → Nat → Pix)
    (scaleToSize : Pix → Nat → Nat → Pix) (stroke : Pix → Nat → Pix)
    (recogboot : Recog) (pixas : List Pix) (threshold : Nat) :
    (bootNormalize convertTo1 scaleToSize stroke recogboot pixas
      threshold).length = pixas.length := by
  unfold bootNormalize
  by_cases h1 : (List.map Pix.d pixas).foldr max 0 = 1 <;>
  by_cases h2 : 0 < recogboot.linew <;>
  simp [h1, h2]

/-- C6: a sample given to recogTrainFromBoot appears in the output if
and only if the identification score of its normalized, label-stripped
copy reaches minscore; every accepted output element is a copy of the
original input image carrying the winning label as its text, and
rejected samples contribute nothing to the output. -/
theorem recogTrainFromBoot_accept_iff (identify : Pix → ℚ × String)
    (convertTo1 : Pix → Nat → Pix) (scaleToSize : Pix → Nat → Nat → Pix)
    (stroke : Pix → Nat → Pix) (recogboot : Recog) (pixas : List Pix)
    (minscore : ℚ) (threshold : Nat) (hne : pixas ≠ []) :
    ∃ l, recogTrainFromBoot identify convertTo1 scaleToSize stroke recogboot
        pixas minscore threshold = some l
      ∧ (∀ i < pixas.length,
          minscore ≤ (identify (bootStripped convertTo1 scaleToSize stroke
            recogboot pixas threshold i)).1 →
          { pixas.getD i (blankPix 1 1) with
            text := (identify (bootStripped convertTo1 scaleToSize stroke
              recogboot pixas threshold i)).2 } ∈ l)
      ∧ (∀ pix ∈ l, ∃ i, i < pixas.length
          ∧ minscore ≤ (identify (bootStripped convertTo1 scaleToSize stroke
              recogboot pixas threshold i)).1
          ∧ pix = { pixas.getD i (blankPix 1 1) with
              text := (identify (bootStripped convertTo1 scaleToSize stroke
                recogboot pixas threshold i)).2 }) := by
  have hlen := bootNormalize_length convertTo1 scaleToSize stroke recogboot
    pixas threshold
  refine ⟨(List.range (bootNormalize convertTo1 scaleToSize stroke recogboot
      pixas threshold).length).filterMap (fun i =>
      if minscore ≤ (identify (bootStripped convertTo1 scaleToSize stroke
          recogboot pixas threshold i)).1
      then some { pixas.getD i (blankPix 1 1) with
        text := (identify (bootStripped convertTo1 scaleToSize stroke
          recogboot pixas threshold i)).2 }
      else none), ?_, ?_, ?_⟩
  · unfold recogTrainFromBoot
    rw [if_neg (by simpa [List.length_eq_zero] using hne)]
  · intro i hi hsc
    refine List.mem_filterMap.mpr ⟨i, ?_, ?_⟩
    · exact List.mem_range.mpr (by rw [hlen]; exact hi)
    · rw [if_pos hsc]
  · intro pix hpix
    obtain ⟨i, hir, hfi⟩ := List.mem_filterMap.mp hpix
    have hi : i < pixas.length := by
      have := List.mem_range.mp hir
      rwa [hlen] at this
    by_cases hsc : minscore ≤ (identify (bootStripped convertTo1 scaleToSize
        stroke recogboot pixas threshold i)).1
    · rw [if_pos hsc] at hfi
      exact ⟨i, hi, hsc, (Option.some.injEq _ _ ▸ hfi).symm⟩
    · rw [if_neg hsc] at hfi
      exact absurd hfi (Option.noConfusion)

def pixC6 : Pix := ⟨4, 4, 1, fun _ _ => true, ""⟩

def recogC6 : Recog := { emptyRecog with scaleh := 40, linew := 0 }

theorem recogTrainFromBoot_accept_iff_witness :
    ∃ l, recogTrainFromBoot (fun _ => (1, "5")) (fun p _ => p)
        (fun p _ _ => p) (fun p _ => p) recogC6 [pixC6] (1/2) 128 = some l
      ∧ (∀ i < [pixC6].length,
          (1 : ℚ)/2 ≤ ((fun (_ : Pix) => ((1 : ℚ), "5"))
            (bootStripped (fun p _ => p) (fun p _ _ => p) (fun p _ => p)
              recogC6 [pixC6] 128 i)).1 →
          { [pixC6].getD i (blankPix 1 1) with
            text := ((fun (_ : Pix) => ((1 : ℚ), "5"))
              (bootStripped (fun p _ => p) (fun p _ _ => p) (fun p _ => p)
                recogC6 [pixC6] 128 i)).2 } ∈ l)
      ∧ (∀ pix ∈ l, ∃ i, i < [pixC6].length
          ∧ (1 : ℚ)/2 ≤ ((fun (_ : Pix) => ((1 : ℚ), "5"))
              (bootStripped (fun p _ => p) (fun p _ _ => p) (fun p _ => p)
                recogC6 [pixC6] 128 i)).1
          ∧ pix = { [pixC6].getD i (blankPix 1 1) with
              text := ((fun (_ : Pix) => ((1 : ℚ), "5"))
                (bootStripped (fun p _ => p) (fun p _ _ => p) (fun p _ => p)
                  recogC6 [pixC6] 128 i)).2 }) :=
  recogTrainFromBoot_accept_iff (fun _ => (1, "5")) (fun p _ => p)
    (fun p _ _ => p) (fun p _ => p) recogC6 [pixC6] (1/2) 128 (by simp)

/-- One score is produced per scaled class member. -/
lemma classScores_length (corr : CorrFun) (r1 : Recog) (i : Nat) :
    (classScores corr r1 i).length = (r1.pixaa.getD i []).length := by
  unfold classScores
  simp

/-- The kept component of the per-class outlier filter body. -/
lemma removeOutliersClass_fst (corr : CorrFun) (r1 : Recog) (ms mf : ℚ)
    (i : Nat) :
    (removeOutliersClass corr r1 ms mf i).1
      = (List.range (r1.pixaa.getD i []).length).filterMap (fun j =>
          if classThreshold corr r1 ms mf i ≤ (classScores corr r1 i).getD j 0
          then (r1.pixaa_u.getD i [])[j]? else none) := rfl

/-- The pooled kept output of recogRemoveOutliers without the debug
destinations. -/
lemma recogRemoveOutliers_fst (buildRecog : List Pix → Recog)
    (corr : CorrFun) (pixas : List Pix) (minscore minfract : ℚ) :
    (recogRemoveOutliers buildRecog corr pixas minscore minfract
        false false).1
      = some ((((List.range
            ((recogAverageSamples (buildRecog pixas)).2.setsize)).map
          (fun k => removeOutliersClass corr
            (recogAverageSamples (buildRecog pixas)).2
            (clampParam minscore (3 / 4)) (clampParam minfract (1 / 2)) k)).map
          (fun t => t.1)).flatten) := by
  unfold recogRemoveOutliers
  rw [if_neg (by simp)]

/-- C1: for every class of the scaled recognizer processed by
recogRemoveOutliers that holds at least one sample, the retention
threshold equals min(maxScoreInClass, min(minScore, rankScore)) with
rankScore the rank value at the 1 - minFraction quantile of the class
score list, hence the threshold never exceeds the maximal class score,
the per-class kept list is nonempty, and everything in it lands in the
pooled kept output of the call (parameters as clamped at entry; the
unscaled class must hold at least as many samples as the scaled one,
which is the index-alignment invariant of the model). -/
theorem recogRemoveOutliers_threshold_retains_max
    (buildRecog : List Pix → Recog) (corr : CorrFun) (pixas : List Pix)
    (minscore minfract : ℚ) (r1 : Recog) (i : Nat)
    (hr1 : r1 = (recogAverageSamples (buildRecog pixas)).2)
    (hi : i < r1.setsize)
    (hne : r1.pixaa.getD i [] ≠ [])
    (hlen : (r1.pixaa.getD i []).length ≤ (r1.pixaa_u.getD i []).length) :
    classThreshold corr r1 (clampParam minscore (3 / 4))
        (clampParam minfract (1 / 2)) i
      = min (listMax (classScores corr r1 i))
          (min (clampParam minscore (3 / 4))
            (rankValue (classScores corr r1 i)
              (1 - clampParam minfract (1 / 2))))
    ∧ classThreshold corr r1 (clampParam minscore (3 / 4))
        (clampParam minfract (1 / 2)) i
        ≤ listMax (classScores corr r1 i)
    ∧ (removeOutliersClass corr r1 (clampParam minscore (3 / 4))
        (clampParam minfract (1 / 2)) i).1 ≠ []
    ∧ ∀ x ∈ (removeOutliersClass corr r1 (clampParam minscore (3 / 4))
        (clampParam minfract (1 / 2)) i).1,
        ∃ kept, (recogRemoveOutliers buildRecog corr pixas minscore minfract
          false false).1 = some kept ∧ x ∈ kept := by
  have hle : classThreshold corr r1 (clampParam minscore (3 / 4))
      (clampParam minfract (1 / 2)) i ≤ listMax (classScores corr r1 i) :=
    min_le_left _ _
  have hsne : classScores corr r1 i ≠ [] := by
    intro hq
    have hl := classScores_length corr r1 i
    rw [hq] at hl
    exact hne (List.length_eq_zero.mp hl.symm)
  obtain ⟨j, hj, hjv⟩ := List.getElem_of_mem (listMax_mem _ hsne)
  have hjn : j < (r1.pixaa.getD i []).length := by
    rwa [classScores_length] at hj
  have hcond : classThreshold corr r1 (clampParam minscore (3 / 4))
      (clampParam minfract (1 / 2)) i ≤ (classScores corr r1 i).getD j 0 := by
    rw [List.getD_eq_getElem?_getD, List.getElem?_eq_getElem hj]
    simpa [hjv] using hle
  have hkept : (removeOutliersClass corr r1 (clampParam minscore (3 / 4))
      (clampParam minfract (1 / 2)) i).1 ≠ [] := by
    rw [removeOutliersClass_fst]
    intro hnil
    have h0 := List.filterMap_eq_nil_iff.mp hnil j (List.mem_range.mpr hjn)
    rw [if_pos hcond, List.getElem?_eq_getElem
      (lt_of_lt_of_le hjn hlen)] at h0
    exact Option.noConfusion h0
  refine ⟨rfl, hle, hkept, ?_⟩
  intro x hx
  refine ⟨_, recogRemoveOutliers_fst buildRecog corr pixas minscore minfract,
    ?_⟩
  rw [← hr1, List.map_map]
  refine List.mem_flatten.mpr ⟨(removeOutliersClass corr r1
    (clampParam minscore (3 / 4)) (clampParam minfract (1 / 2)) i).1, ?_, hx⟩
  exact List.mem_map.mpr ⟨i, List.mem_range.mpr hi, rfl⟩

def pixC1 : Pix := ⟨6, 6, 1, fun _ _ => true, "1"⟩

def recogC1 : Recog :=
  { emptyRecog with
    ave_done := true
    setsize := 1
    sa_text := ["1"]
    pixaa_u := [[pixC1]]
    pixaa := [[pixC1]]
    ptaa_u := [[(0, 0)]]
    ptaa := [[(0, 0)]]
    naasum_u := [[36]]
    naasum := [[36]]
    pixa_u := [pixC1]
    pixa := [pixC1]
    pta_u := [(0, 0)]
    pta := [(0, 0)]
    nasum_u := [36]
    nasum := [36] }

def buildC1 : List Pix → Recog := fun _ => recogC1

def corrC1 : CorrFun := fun _ _ _ _ _ _ _ _ => 4 / 5

theorem recogRemoveOutliers_threshold_retains_max_witness :
    (removeOutliersClass corrC1 recogC1 (clampParam (3 / 4) (3 / 4))
      (clampParam (1 / 2) (1 / 2)) 0).1 ≠ [] :=
  (recogRemoveOutliers_threshold_retains_max buildC1 corrC1 [] (3 / 4) (1 / 2)
    recogC1 0 rfl (by decide) (by simp [recogC1]) (by decide)).2.2.1
